import Mathlib

/-!
Shallow embedding of the `page` package: a generic cursor-based pagination
helper (`Pager`) that drives a caller-supplied `Loader` until exhaustion.

Modelling conventions:
- Go errors are modelled as `Option String` (the error message; `none` = nil).
- A Go `Loader[T]` value is a pure function from the page key and page size to
  the triple `(page, nextPageKey, err)`; the `context.Context` argument is
  dropped since the pager merely forwards it.
- The nilable Go interface field `nextPageLoader` is `Option (Loader T)`,
  with `none` modelling the nil interface value.
- Methods mutating the receiver return the updated `Pager` explicitly, and
  additionally return the list of page keys the loader was invoked with during
  the call (the call trace), so that "the loader is not invoked" is statable.
- `Next` returns `none` where Go would dereference a nil loader (a panic);
  pagers produced by `New` always carry a loader, so that branch is
  unreachable for them.
- The unbounded `for` loop in `All` is modelled with explicit fuel
  (`Pager.AllLoop`); `none` means the fuel ran out before the loop finished.
  `Pager.AllTerminates` says some finite fuel suffices.
- `sync.Once` in `pageLoadedAtLeastOnceTime` only ever sets
  `isFirstPageLoaded` to `true`; since nothing resets the flag, the once-guard
  has no further observable effect and the model just sets the flag to `true`.
-/

namespace Page

/-- Default page size from the `defaultPageSize` constant. -/
def defaultPageSize : Int := 100

/-- A loader loads one page: given the page key and the page size it returns
the items, the next page key, and an error indicator. -/
def Loader (T : Type) : Type :=
  String → Int → List T × String × Option String

/-- The `Pager` struct: page size, cursor, loader and the first-page flag. -/
structure Pager (T : Type) where
  pageSize : Int
  nextPageKey : String
  nextPageLoader : Option (Loader T)
  isFirstPageLoaded : Bool

/-- Completion predicate `IsAllLoaded`: the next page key is empty and the
first page has been loaded. -/
def Pager.IsAllLoaded {T : Type} (p : Pager T) : Bool :=
  p.nextPageKey == "" && p.isFirstPageLoaded

/-- Effect of `pageLoadedAtLeastOnceTime`: set `isFirstPageLoaded` to `true`
(the `sync.Once` guard makes repeated calls have no further effect, which
coincides with unconditionally setting the flag). -/
def Pager.pageLoadedAtLeastOnceTime {T : Type} (p : Pager T) : Pager T :=
  { p with isFirstPageLoaded := true }

/-- The `Next` method. Returns the page and error, the updated pager, and the
list of keys the loader was called with. `none` models the nil-loader panic. -/
def Pager.Next {T : Type} (p : Pager T) :
    Option ((List T × Option String) × Pager T × List String) :=
  if p.IsAllLoaded then
    some (([], none), p, [])
  else
    match p.nextPageLoader with
    | none => none
    | some load =>
      match load p.nextPageKey p.pageSize with
      | (_, _, some e) =>
        some (([], some ("page " ++ p.nextPageKey ++ ": " ++ e)), p, [p.nextPageKey])
      | (page, nextPageKey, none) =>
        some ((page, none),
          Pager.pageLoadedAtLeastOnceTime { p with nextPageKey := nextPageKey },
          [p.nextPageKey])

/-- The loop body of `All`, with explicit fuel bounding the number of loop
iterations. `acc` is the `allPages` accumulator. `none` means the fuel was
exhausted before the loop ended (or a nil loader was dereferenced). -/
def Pager.AllLoop {T : Type} :
    Pager T → List T → Nat → Option ((List T × Option String) × Pager T × List String)
  | p, acc, fuel =>
    if p.IsAllLoaded then
      some ((acc, none), p, [])
    else
      match fuel with
      | 0 => none
      | fuel' + 1 =>
        match p.Next with
        | none => none
        | some ((_, some e), p', tr) => some ((acc, some e), p', tr)
        | some ((page, none), p', tr) =>
          (Pager.AllLoop p' (acc ++ page) fuel').map (fun r => (r.1, r.2.1, tr ++ r.2.2))

/-- The `All` method: run the loop with the given fuel starting from an empty
accumulator. -/
def Pager.All {T : Type} (p : Pager T) (fuel : Nat) :
    Option ((List T × Option String) × Pager T × List String) :=
  Pager.AllLoop p [] fuel

/-- `All` terminates from state `p` when some finite fuel completes the loop. -/
def Pager.AllTerminates {T : Type} (p : Pager T) : Prop :=
  ∃ fuel, (p.All fuel).isSome = true

/-- A configuration option: may fail validation or update the pager. -/
def PagerOption (T : Type) : Type :=
  Pager T → Except String (Pager T)

/-- The `WithNextPageKey` option. -/
def WithNextPageKey {T : Type} (key : String) : PagerOption T := fun p =>
  if key == "" then .error "next page key must not be empty"
  else .ok { p with nextPageKey := key }

/-- The `WithPageSize` option. -/
def WithPageSize {T : Type} (pageSize : Int) : PagerOption T := fun p =>
  if pageSize ≤ 0 then .error "page size must be positive"
  else .ok { p with pageSize := pageSize }

/-- The `WithNextPageLoader` option; the argument is nilable in Go, modelled
by `Option`. -/
def WithNextPageLoader {T : Type} (loader : Option (Loader T)) : PagerOption T := fun p =>
  match loader with
  | none => .error "next page loader is required"
  | some l => .ok { p with nextPageLoader := some l }

/-- The pager value `New` builds before applying any option: default page
size, zero-value cursor, nil loader, flag unset. -/
def initPager (T : Type) : Pager T :=
  { pageSize := defaultPageSize
    nextPageKey := ""
    nextPageLoader := none
    isFirstPageLoaded := false }

/-- The option-application loop of `New`: apply options in order, stopping at
the first failure with that option's error. -/
def applyOptions {T : Type} : List (PagerOption T) → Pager T → Except String (Pager T)
  | [], p => .ok p
  | o :: os, p =>
    match o p with
    | .error e => .error e
    | .ok p' => applyOptions os p'

/-- The `New` constructor: apply the options in order, then require a loader. -/
def New {T : Type} (opts : List (PagerOption T)) : Except String (Pager T) :=
  match applyOptions opts (initPager T) with
  | .error e => .error e
  | .ok p =>
    match p.nextPageLoader with
    | none => .error "next page loader is required"
    | some _ => .ok p

/-- An option is one of the three recognized option constructors. -/
def RecognizedOption {T : Type} (o : PagerOption T) : Prop :=
  (∃ key, o = WithNextPageKey key) ∨ (∃ n, o = WithPageSize n) ∨
    (∃ l, o = WithNextPageLoader l)

/-- A call made against a pager: one `Next` call, or one `All` call with the
given fuel bound. -/
inductive PagerCall : Type where
  | next : PagerCall
  | all : Nat → PagerCall

/-- Run a sequence of `Next` / `All` calls, returning the final pager and the
concatenated loader-call traces. -/
def runCalls {T : Type} : Pager T → List PagerCall → Option (Pager T × List String)
  | p, [] => some (p, [])
  | p, PagerCall.next :: rest =>
    match p.Next with
    | none => none
    | some (_, p', tr) => (runCalls p' rest).map (fun r => (r.1, tr ++ r.2))
  | p, PagerCall.all fuel :: rest =>
    match p.All fuel with
    | none => none
    | some (_, p', tr) => (runCalls p' rest).map (fun r => (r.1, tr ++ r.2))

/-- The key of the first entry of a key/page list, or a default. -/
def headKey {T : Type} (entries : List (String × List T)) (dflt : String) : String :=
  match entries with
  | [] => dflt
  | (k, _) :: _ => k

/-- A finite all-successful run of a loader: each entry pairs the key a load
is made with and the page it returns; each load hands back the next entry's
key (non-empty, so the pager continues), and the last load hands back the
empty key. -/
def LoadChain {T : Type} (L : Loader T) (sz : Int) : List (String × List T) → Prop
  | [] => True
  | [(k, pg)] => L k sz = (pg, "", none)
  | (k, pg) :: (k', pg') :: rest =>
    L k sz = (pg, k', none) ∧ k' ≠ "" ∧ LoadChain L sz ((k', pg') :: rest)

/-- A finite run of a loader that fails in the end: starting at key `k`, the
successful loads are listed in `entries` (each handing back the next key,
non-empty), and the load at key `fk` reports error `e`. -/
def LoadChainFail {T : Type} (L : Loader T) (sz : Int) :
    String → List (String × List T) → String → String → Prop
  | k, [], fk, e => k = fk ∧ (L fk sz).2.2 = some e
  | k, (k₀, pg) :: rest, fk, e =>
    k = k₀ ∧ L k₀ sz = (pg, headKey rest fk, none) ∧ headKey rest fk ≠ "" ∧
      LoadChainFail L sz (headKey rest fk) rest fk e

/-- The loader's key iteration from the given key stops within `n` loads:
some load reports an error or hands back an empty next key. -/
def loaderStops {T : Type} (L : Loader T) (sz : Int) : Nat → String → Bool
  | 0, _ => false
  | n + 1, key =>
    match L key sz with
    | (_, _, some _) => true
    | (_, nk, none) => nk == "" || loaderStops L sz n nk

/-- Three-page loader from the spec: keys "" → "second" → "third" → "" with
pages {1,2,3}, {4,5,6}, {7,8}. -/
def exampleLoader : Loader Nat := fun key _ =>
  if key == "" then ([1, 2, 3], "second", none)
  else if key == "second" then ([4, 5, 6], "third", none)
  else if key == "third" then ([7, 8], "", none)
  else ([], "", some "unknown key")

/-- The same three-page loader, but failing when called with key "third". -/
def exampleFailLoader : Loader Nat := fun key _ =>
  if key == "" then ([1, 2, 3], "second", none)
  else if key == "second" then ([4, 5, 6], "third", none)
  else ([], "", some "boom")

/-- A loader that always hands back the non-empty key "a" and never fails. -/
def loopLoader : Loader Nat := fun _ _ => ([], "a", none)

/-- A loader that immediately reports completion: no items, empty next key. -/
def emptyLoader : Loader Nat := fun _ _ => ([], "", none)

/-- Unfolding of the loop of `All` at zero fuel. -/
lemma allLoop_zero {T : Type} (p : Pager T) (acc : List T) :
    Pager.AllLoop p acc 0 =
      if p.IsAllLoaded then some ((acc, none), p, []) else none := rfl

/-- One-step unfolding of the loop of `All` at positive fuel. -/
lemma allLoop_succ {T : Type} (p : Pager T) (acc : List T) (fuel : Nat) :
    Pager.AllLoop p acc (fuel + 1) =
      if p.IsAllLoaded then some ((acc, none), p, [])
      else
        match p.Next with
        | none => none
        | some ((_, some e), p', tr) => some ((acc, some e), p', tr)
        | some ((page, none), p', tr) =>
          (Pager.AllLoop p' (acc ++ page) fuel).map (fun r => (r.1, r.2.1, tr ++ r.2.2)) := rfl

/-- On a fully loaded pager the loop of `All` ends at once, whatever the fuel
and the accumulator. -/
lemma allLoop_of_isAllLoaded {T : Type} (p : Pager T) (acc : List T) (fuel : Nat)
    (h : p.IsAllLoaded = true) :
    Pager.AllLoop p acc fuel = some ((acc, none), p, []) := by
  cases fuel with
  | zero => rw [allLoop_zero, h]; rfl
  | succ n => rw [allLoop_succ, h]; rfl

/-- One successful iteration of the loop of `All`. -/
lemma allLoop_step_success {T : Type} (p p' : Pager T) (acc page : List T)
    (tr : List String) (fuel : Nat)
    (hnl : p.IsAllLoaded = false)
    (hnext : p.Next = some ((page, none), p', tr)) :
    Pager.AllLoop p acc (fuel + 1) =
      (Pager.AllLoop p' (acc ++ page) fuel).map (fun r => (r.1, r.2.1, tr ++ r.2.2)) := by
  rw [allLoop_succ, hnl]
  simp [hnext]

/-- A failing iteration ends the loop of `All` with the accumulator and the
error from `Next`. -/
lemma allLoop_step_error {T : Type} (p p' : Pager T) (acc pg : List T) (e : String)
    (tr : List String) (fuel : Nat)
    (hnl : p.IsAllLoaded = false)
    (hnext : p.Next = some ((pg, some e), p', tr)) :
    Pager.AllLoop p acc (fuel + 1) = some ((acc, some e), p', tr) := by
  rw [allLoop_succ, hnl]
  simp [hnext]

/-- A pager whose flag is unset whenever its key is empty is not fully
loaded. -/
lemma isAllLoaded_eq_false {T : Type} (sz : Int) (k : String)
    (lo : Option (Loader T)) (flag : Bool) (h : k = "" → flag = false) :
    Pager.IsAllLoaded ⟨sz, k, lo, flag⟩ = false := by
  by_cases hk : k = ""
  · simp [Pager.IsAllLoaded, hk, h hk]
  · simp [Pager.IsAllLoaded, hk]

/-- Loop lemma for an all-successful run: starting from a state holding the
first chain key (with the flag unset whenever that key is empty), the loop of
`All` uses one fuel per page, appends the pages in order to the accumulator,
and ends fully loaded, having called the loader once per chain entry. -/
lemma allLoop_of_loadChain {T : Type} (L : Loader T) (sz : Int) :
    ∀ (rest : List (String × List T)) (k : String) (pg : List T),
      LoadChain L sz ((k, pg) :: rest) →
      ∀ (flag : Bool) (acc : List T), (k = "" → flag = false) →
      Pager.AllLoop ⟨sz, k, some L, flag⟩ acc (rest.length + 1) =
        some ((acc ++ (pg :: rest.map Prod.snd).flatten, none),
          ⟨sz, "", some L, true⟩, k :: rest.map Prod.fst) := by
  intro rest
  induction rest with
  | nil =>
    intro k pg hchain flag acc hflag
    simp only [LoadChain] at hchain
    have hnl := isAllLoaded_eq_false sz k (some L) flag hflag
    have hinner : Pager.AllLoop (⟨sz, "", some L, true⟩ : Pager T) (acc ++ pg) 0 =
        some ((acc ++ pg, none), ⟨sz, "", some L, true⟩, []) :=
      allLoop_of_isAllLoaded _ _ _ (by simp [Pager.IsAllLoaded])
    have hnext : Pager.Next (⟨sz, k, some L, flag⟩ : Pager T) =
        some ((pg, none), ⟨sz, "", some L, true⟩, [k]) := by
      simp [Pager.Next, hnl, hchain, Pager.pageLoadedAtLeastOnceTime]
    simp only [List.length_nil]
    rw [allLoop_step_success _ _ _ _ _ _ hnl hnext, hinner]
    simp
  | cons hd tl ih =>
    intro k pg hchain flag acc hflag
    obtain ⟨k', pg'⟩ := hd
    simp only [LoadChain] at hchain
    obtain ⟨hL, hk', hrest⟩ := hchain
    have hnl := isAllLoaded_eq_false sz k (some L) flag hflag
    have hinner := ih k' pg' hrest true (acc ++ pg) (fun h => absurd h hk')
    have hnext : Pager.Next (⟨sz, k, some L, flag⟩ : Pager T) =
        some ((pg, none), ⟨sz, k', some L, true⟩, [k]) := by
      simp [Pager.Next, hnl, hL, Pager.pageLoadedAtLeastOnceTime]
    simp only [List.length_cons]
    rw [allLoop_step_success _ _ _ _ _ _ hnl hnext, hinner]
    simp

/-- C2: When the loader runs through a finite chain of successful pages
(first key empty, each load handing back the next key, the last one empty),
`All` returns the concatenation of all the pages in fetch order with no
error, ends fully loaded, and calls the loader once per page in key order. -/
theorem all_concats_successful_pages {T : Type} (L : Loader T) (sz : Int)
    (pg : List T) (rest : List (String × List T))
    (h : LoadChain L sz (("", pg) :: rest)) :
    Pager.All ⟨sz, "", some L, false⟩ (rest.length + 1) =
      some (((pg :: rest.map Prod.snd).flatten, none),
        ⟨sz, "", some L, true⟩, "" :: rest.map Prod.fst) := by
  have hmain := allLoop_of_loadChain L sz rest "" pg h false [] (fun _ => rfl)
  simpa [Pager.All] using hmain

/-- Witness for C2: the three-page loader from the spec yields
[1,2,3,4,5,6,7,8] with no error. -/
theorem all_concats_successful_pages_witness :
    Pager.All (⟨100, "", some exampleLoader, false⟩ : Pager Nat) 3 =
      some (([1, 2, 3, 4, 5, 6, 7, 8], none),
        ⟨100, "", some exampleLoader, true⟩, ["", "second", "third"]) := by
  exact all_concats_successful_pages exampleLoader 100 [1, 2, 3]
    [("second", [4, 5, 6]), ("third", [7, 8])]
    ⟨rfl, by decide, rfl, by decide, rfl⟩

/-- Loop lemma for a run that ends in a failure: the successful pages are
accumulated, the failing load ends the loop with the wrapped error, the state
is the one just before the failed attempt, and the trace ends at the failing
key (the loader is not invoked after the failure). -/
lemma allLoop_of_loadChainFail {T : Type} (L : Loader T) (sz : Int) :
    ∀ (entries : List (String × List T)) (k fk e : String),
      LoadChainFail L sz k entries fk e →
      ∀ (flag : Bool) (acc : List T), (k = "" → flag = false) →
      Pager.AllLoop ⟨sz, k, some L, flag⟩ acc (entries.length + 1) =
        some ((acc ++ (entries.map Prod.snd).flatten,
            some ("page " ++ fk ++ ": " ++ e)),
          ⟨sz, fk, some L, if entries.isEmpty then flag else true⟩,
          entries.map Prod.fst ++ [fk]) := by
  intro entries
  induction entries with
  | nil =>
    intro k fk e hchain flag acc hflag
    simp only [LoadChainFail] at hchain
    obtain ⟨hk, herr⟩ := hchain
    subst hk
    have hnl := isAllLoaded_eq_false sz k (some L) flag hflag
    rcases htr : L k sz with ⟨pgf, nkf, errf⟩
    rw [htr] at herr
    simp only at herr
    subst herr
    have hnext : Pager.Next (⟨sz, k, some L, flag⟩ : Pager T) =
        some (([], some ("page " ++ k ++ ": " ++ e)), ⟨sz, k, some L, flag⟩, [k]) := by
      simp [Pager.Next, hnl, htr]
    simp only [List.length_nil]
    rw [allLoop_step_error _ _ _ _ _ _ _ hnl hnext]
    simp
  | cons hd tl ih =>
    intro k fk e hchain flag acc hflag
    obtain ⟨k₀, pg⟩ := hd
    simp only [LoadChainFail] at hchain
    obtain ⟨hk, hL, hne, hrest⟩ := hchain
    subst hk
    have hnl := isAllLoaded_eq_false sz k (some L) flag hflag
    have hinner := ih (headKey tl fk) fk e hrest true (acc ++ pg) (fun h => absurd h hne)
    have hnext : Pager.Next (⟨sz, k, some L, flag⟩ : Pager T) =
        some ((pg, none), ⟨sz, headKey tl fk, some L, true⟩, [k]) := by
      simp [Pager.Next, hnl, hL, Pager.pageLoadedAtLeastOnceTime]
    simp only [List.length_cons]
    rw [allLoop_step_success _ _ _ _ _ _ hnl hnext, hinner]
    cases tl with
    | nil => simp
    | cons hd' tl' => simp

/-- C6: When the loader succeeds through the listed pages and then fails at
key `fk` with error `e`, `All` stops at the first failure, returning the
pages accumulated from the preceding successful fetches in order together
with the wrapped error; the loader is called once per successful page and
once at the failing key, and not again afterwards, and the pager state stays
at the failing key so no automatic retry happens. -/
theorem all_stops_at_first_failure {T : Type} (L : Loader T) (sz : Int)
    (entries : List (String × List T)) (fk e : String)
    (h : LoadChainFail L sz "" entries fk e) :
    Pager.All ⟨sz, "", some L, false⟩ (entries.length + 1) =
      some (((entries.map Prod.snd).flatten, some ("page " ++ fk ++ ": " ++ e)),
        ⟨sz, fk, some L, !entries.isEmpty⟩, entries.map Prod.fst ++ [fk]) := by
  have hmain := allLoop_of_loadChainFail L sz entries "" fk e h false [] (fun _ => rfl)
  have hflag : (if entries.isEmpty then false else true) = !entries.isEmpty := by
    cases entries with
    | nil => rfl
    | cons hd tl => rfl
  rw [hflag] at hmain
  simpa [Pager.All] using hmain

/-- Witness for C6: the example loader failing at key "third" yields the
partial sequence [1,2,3,4,5,6] with the wrapped error, with no further
loader call after the failure. -/
theorem all_stops_at_first_failure_witness :
    Pager.All (⟨100, "", some exampleFailLoader, false⟩ : Pager Nat) 3 =
      some (([1, 2, 3, 4, 5, 6], some "page third: boom"),
        ⟨100, "third", some exampleFailLoader, true⟩, ["", "second", "third"]) := by
  exact all_stops_at_first_failure exampleFailLoader 100
    [("", [1, 2, 3]), ("second", [4, 5, 6])] "third" "boom"
    ⟨rfl, rfl, by decide, rfl, rfl, by decide, rfl, rfl⟩

/-- Recognized options never touch the first-page flag. -/
lemma recognizedOption_preserves_flag {T : Type} (o : PagerOption T) (p p' : Pager T)
    (hrec : RecognizedOption o) (h : o p = .ok p') :
    p'.isFirstPageLoaded = p.isFirstPageLoaded := by
  rcases hrec with ⟨key, rfl⟩ | ⟨n, rfl⟩ | ⟨l, rfl⟩
  · by_cases hk : key == ""
    · simp [WithNextPageKey, hk] at h
    · simp [WithNextPageKey, hk] at h
      simp [← h]
  · by_cases hn : n ≤ 0
    · simp [WithPageSize, hn] at h
    · simp [WithPageSize, hn] at h
      simp [← h]
  · cases l with
    | none => simp [WithNextPageLoader] at h
    | some l' =>
      simp [WithNextPageLoader] at h
      simp [← h]

/-- Applying a list of recognized options never touches the first-page flag. -/
lemma applyOptions_preserves_flag {T : Type} :
    ∀ (opts : List (PagerOption T)) (p p' : Pager T),
      (∀ o ∈ opts, RecognizedOption o) → applyOptions opts p = .ok p' →
      p'.isFirstPageLoaded = p.isFirstPageLoaded := by
  intro opts
  induction opts with
  | nil =>
    intro p p' _ h
    simp [applyOptions] at h
    rw [← h]
  | cons o os ih =>
    intro p p' hrec h
    simp only [applyOptions] at h
    cases ho : o p with
    | error e => rw [ho] at h; exact absurd h (by simp)
    | ok q =>
      rw [ho] at h
      have h1 := recognizedOption_preserves_flag o p q (hrec o (by simp)) ho
      have h2 := ih q p' (fun o' ho' => hrec o' (by simp [ho'])) h
      rw [h2, h1]

/-- C1: `IsAllLoaded` is true iff the next page key is empty and the first
page has been loaded; and every pager freshly constructed by `New` from
recognized options is not fully loaded, even though its next page key
defaults to the empty string. -/
theorem isAllLoaded_characterization {T : Type} :
    (∀ p : Pager T,
      p.IsAllLoaded = true ↔ (p.nextPageKey = "" ∧ p.isFirstPageLoaded = true)) ∧
    (∀ (opts : List (PagerOption T)) (p : Pager T),
      (∀ o ∈ opts, RecognizedOption o) → New opts = .ok p → p.IsAllLoaded = false) := by
  constructor
  · intro p
    simp [Pager.IsAllLoaded, Bool.and_eq_true, beq_iff_eq]
  · intro opts p hrec hnew
    simp only [New] at hnew
    cases happ : applyOptions opts (initPager T) with
    | error e => rw [happ] at hnew; exact absurd hnew (by simp)
    | ok q =>
      rw [happ] at hnew
      dsimp only at hnew
      cases hq : q.nextPageLoader with
      | none => rw [hq] at hnew; exact absurd hnew (by simp)
      | some l =>
        rw [hq] at hnew
        have hpq : q = p := by simpa using hnew
        have hflag := applyOptions_preserves_flag opts (initPager T) q hrec happ
        rw [hpq] at hflag
        simp [Pager.IsAllLoaded, hflag, initPager]

/-- Witness for C1 part two: construction with just a loader yields a pager
that is not fully loaded. -/
theorem isAllLoaded_characterization_witness :
    New [WithNextPageLoader (some emptyLoader)] =
      .ok (⟨100, "", some emptyLoader, false⟩ : Pager Nat) ∧
    Pager.IsAllLoaded (⟨100, "", some emptyLoader, false⟩ : Pager Nat) = false := by
  refine ⟨rfl, ?_⟩
  exact isAllLoaded_characterization.2 [WithNextPageLoader (some emptyLoader)]
    ⟨100, "", some emptyLoader, false⟩
    (by
      intro o ho
      simp only [List.mem_singleton] at ho
      exact Or.inr (Or.inr ⟨some emptyLoader, ho⟩))
    rfl

/-- Applying a concatenated option list runs the first part, then the second
on its result, stopping at the first error. -/
lemma applyOptions_append {T : Type} :
    ∀ (xs ys : List (PagerOption T)) (p : Pager T),
      applyOptions (xs ++ ys) p =
        match applyOptions xs p with
        | .error e => .error e
        | .ok q => applyOptions ys q := by
  intro xs
  induction xs with
  | nil => intro ys p; rfl
  | cons o os ih =>
    intro ys p
    simp only [List.cons_append, applyOptions]
    cases o p with
    | error e => rfl
    | ok q => exact ih ys q

/-- An option that is a valid key or size setting, or the loader option
carrying a nil loader: an option that can never set a loader. -/
def ValidNoLoaderOption {T : Type} (o : PagerOption T) : Prop :=
  (∃ key, key ≠ "" ∧ o = WithNextPageKey key) ∨
  (∃ n, 0 < n ∧ o = WithPageSize n) ∨
  o = WithNextPageLoader none

/-- Applying options none of which can set a loader either fails with the
loader-required error (the nil-loader option) or succeeds leaving the loader
unset. -/
lemma applyOptions_no_loader {T : Type} :
    ∀ (opts : List (PagerOption T)) (p : Pager T),
      (∀ o ∈ opts, ValidNoLoaderOption o) → p.nextPageLoader = none →
      applyOptions opts p = .error "next page loader is required" ∨
        (∃ q, applyOptions opts p = .ok q ∧ q.nextPageLoader = none) := by
  intro opts
  induction opts with
  | nil =>
    intro p _ hp
    exact Or.inr ⟨p, rfl, hp⟩
  | cons o os ih =>
    intro p hval hp
    have hos : ∀ o' ∈ os, ValidNoLoaderOption o' := fun o' ho' => hval o' (by simp [ho'])
    rcases hval o (by simp) with ⟨key, hk, rfl⟩ | ⟨n, hn, rfl⟩ | rfl
    · have hstep : WithNextPageKey key p = .ok { p with nextPageKey := key } := by
        simp [WithNextPageKey, hk]
      simp only [applyOptions, hstep]
      exact ih { p with nextPageKey := key } hos hp
    · have hstep : WithPageSize n p = .ok { p with pageSize := n } := by
        have : ¬ n ≤ 0 := by omega
        simp [WithPageSize, this]
      simp only [applyOptions, hstep]
      exact ih { p with pageSize := n } hos hp
    · have hstep : WithNextPageLoader (none : Option (Loader T)) p =
          .error "next page loader is required" := rfl
      simp only [applyOptions, hstep]
      exact Or.inl trivial

/-- C7: `New` applies the options in order and the first failing option
aborts construction with that option's error and no pager; if every option
succeeds but no loader was set, construction fails with the loader-required
error; and when the options are any mix of valid key/size settings and
nil-loader options — so no loader is ever set — construction always fails
with "next page loader is required". -/
theorem new_applies_options_and_requires_loader {T : Type} :
    (∀ (pre post : List (PagerOption T)) (o : PagerOption T) (p : Pager T) (e : String),
      applyOptions pre (initPager T) = .ok p → o p = .error e →
      New (pre ++ o :: post) = .error e) ∧
    (∀ (opts : List (PagerOption T)) (p : Pager T),
      applyOptions opts (initPager T) = .ok p → p.nextPageLoader = none →
      New opts = .error "next page loader is required") ∧
    (∀ opts : List (PagerOption T),
      (∀ o ∈ opts, ValidNoLoaderOption o) →
      New opts = .error "next page loader is required") := by
  refine ⟨?_, ?_, ?_⟩
  · intro pre post o p e hpre ho
    simp only [New, applyOptions_append, hpre, applyOptions, ho]
  · intro opts p happ hnone
    simp only [New, happ, hnone]
  · intro opts hval
    rcases applyOptions_no_loader opts (initPager T) hval rfl with h | ⟨q, hq, hqnone⟩
    · simp only [New, h]
    · simp only [New, hq, hqnone]

/-- Witness for C7: a failing page-size option aborts with its own error, and
loader-free valid options end in the loader-required error. -/
theorem new_applies_options_and_requires_loader_witness :
    @New Nat ([] ++ WithPageSize 0 :: []) = .error "page size must be positive" ∧
    @New Nat [WithPageSize 5] = .error "next page loader is required" := by
  constructor
  · exact new_applies_options_and_requires_loader.1 [] [] (WithPageSize 0)
      (initPager Nat) "page size must be positive" rfl rfl
  · exact new_applies_options_and_requires_loader.2.2 [WithPageSize 5]
      (by
        intro o ho
        simp only [List.mem_singleton] at ho
        exact Or.inr (Or.inl ⟨5, by norm_num, ho⟩))

/-- C5: Once the pager is fully loaded, `Next` returns an empty page and no
error, performs no loader call, and leaves the pager unchanged, so the
operation is idempotent once exhausted. -/
theorem next_after_fully_loaded {T : Type} (p : Pager T)
    (h : p.IsAllLoaded = true) :
    p.Next = some (([], none), p, []) := by
  simp [Pager.Next, h]

/-- Witness for C5 at a concrete fully loaded pager. -/
theorem next_after_fully_loaded_witness :
    Pager.IsAllLoaded (⟨100, "", some emptyLoader, true⟩ : Pager Nat) = true ∧
    Pager.Next (⟨100, "", some emptyLoader, true⟩ : Pager Nat) =
      some (([], none), ⟨100, "", some emptyLoader, true⟩, []) :=
  ⟨rfl, next_after_fully_loaded ⟨100, "", some emptyLoader, true⟩ rfl⟩

/-- C3: When the pager is not fully loaded and the loader call fails, `Next`
returns no items together with the error "page <key>: <underlying error>"
built from the key used in the attempt, makes exactly that one loader call,
and leaves the whole pager state exactly as before, so a retry resumes from
the same key. -/
theorem next_loader_error {T : Type} (p : Pager T) (L : Loader T)
    (pg : List T) (nk e : String)
    (hload : p.IsAllLoaded = false)
    (hl : p.nextPageLoader = some L)
    (hres : L p.nextPageKey p.pageSize = (pg, nk, some e)) :
    p.Next =
      some (([], some ("page " ++ p.nextPageKey ++ ": " ++ e)), p, [p.nextPageKey]) := by
  simp [Pager.Next, hload, hl, hres]

/-- Witness for C3: the failing example loader at key "third". -/
theorem next_loader_error_witness :
    Pager.IsAllLoaded (⟨100, "third", some exampleFailLoader, true⟩ : Pager Nat) = false ∧
    Pager.Next (⟨100, "third", some exampleFailLoader, true⟩ : Pager Nat) =
      some (([], some "page third: boom"),
        ⟨100, "third", some exampleFailLoader, true⟩, ["third"]) :=
  ⟨rfl, next_loader_error ⟨100, "third", some exampleFailLoader, true⟩
    exampleFailLoader [] "" "boom" rfl rfl rfl⟩

/-- C4: When the pager is not fully loaded and the loader call succeeds,
`Next` stores the returned next key (even when empty), sets the first-page
flag, returns the returned page with no error, and the resulting pager is
fully loaded exactly when the returned key is empty — so an empty key on the
very first call completes the pager at once, while an empty page with a
non-empty key is a valid non-terminal result. -/
theorem next_loader_success {T : Type} (p : Pager T) (L : Loader T)
    (pg : List T) (nk : String)
    (hload : p.IsAllLoaded = false)
    (hl : p.nextPageLoader = some L)
    (hres : L p.nextPageKey p.pageSize = (pg, nk, none)) :
    p.Next = some ((pg, none),
        { p with nextPageKey := nk, isFirstPageLoaded := true }, [p.nextPageKey]) ∧
    Pager.IsAllLoaded { p with nextPageKey := nk, isFirstPageLoaded := true } = (nk == "") := by
  constructor
  · simp [Pager.Next, Pager.pageLoadedAtLeastOnceTime, hload, hl, hres]
  · simp [Pager.IsAllLoaded]

/-- Witness for C4: a first call returning no items and an empty next key
makes a fresh pager fully loaded at once. -/
theorem next_loader_success_witness :
    Pager.Next (⟨100, "", some emptyLoader, false⟩ : Pager Nat) =
      some (([], none), ⟨100, "", some emptyLoader, true⟩, [""]) ∧
    Pager.IsAllLoaded (⟨100, "", some emptyLoader, true⟩ : Pager Nat) = ("" == "") :=
  next_loader_success ⟨100, "", some emptyLoader, false⟩ emptyLoader [] "" rfl rfl rfl

/-- C8: `WithPageSize` fails with "page size must be positive" exactly when
the supplied size is ≤ 0, and stores any size ≥ 1; `WithNextPageKey` fails
with "next page key must not be empty" exactly when the supplied key is the
empty string, and stores any non-empty key; and when the size option is
absent the page size is the default 100, both in the pre-option pager and in
a pager built from a loader option alone. -/
theorem option_validation {T : Type} (n : Int) (key : String) (p : Pager T) :
    (WithPageSize n p = .error "page size must be positive" ↔ n ≤ 0) ∧
    (0 < n → WithPageSize n p = .ok { p with pageSize := n }) ∧
    (WithNextPageKey key p = .error "next page key must not be empty" ↔ key = "") ∧
    (key ≠ "" → WithNextPageKey key p = .ok { p with nextPageKey := key }) ∧
    (initPager T).pageSize = 100 ∧
    (∀ L : Loader T, New [WithNextPageLoader (some L)] =
      .ok { initPager T with nextPageLoader := some L }) := by
  refine ⟨?_, ?_, ?_, ?_, rfl, fun L => rfl⟩
  · constructor
    · intro h
      by_contra hn
      simp [WithPageSize, hn] at h
    · intro h
      simp [WithPageSize, h]
  · intro h
    have : ¬ n ≤ 0 := by omega
    simp [WithPageSize, this]
  · constructor
    · intro h
      by_contra hk
      simp [WithNextPageKey, hk] at h
    · intro h
      simp [WithNextPageKey, h]
  · intro h
    simp [WithNextPageKey, h]

/-- Witness for C8: size 5 is stored, key "k" is stored, size 0 and the
empty key are rejected with their respective errors. -/
theorem option_validation_witness :
    WithPageSize 5 (initPager Nat) = .ok { initPager Nat with pageSize := 5 } ∧
    WithNextPageKey "k" (initPager Nat) = .ok { initPager Nat with nextPageKey := "k" } ∧
    WithPageSize 0 (initPager Nat) = .error "page size must be positive" ∧
    WithNextPageKey "" (initPager Nat) = .error "next page key must not be empty" := by
  refine ⟨?_, ?_, ?_, ?_⟩
  · exact (option_validation 5 "k" (initPager Nat)).2.1 (by norm_num)
  · exact (option_validation 5 "k" (initPager Nat)).2.2.2.1 (by decide)
  · exact (option_validation 0 "" (initPager Nat)).1.mpr (by norm_num)
  · exact (option_validation 0 "" (initPager Nat)).2.2.1.mpr rfl

/-- From the state the looping loader drives the pager into, the loop of
`All` never ends, whatever the fuel and the accumulator. -/
lemma allLoop_loopPager_none (fuel : Nat) :
    ∀ acc, Pager.AllLoop (⟨100, "a", some loopLoader, true⟩ : Pager Nat) acc fuel = none := by
  induction fuel with
  | zero =>
    intro acc
    rw [allLoop_zero]
    rfl
  | succ m ih =>
    intro acc
    have hnl : Pager.IsAllLoaded (⟨100, "a", some loopLoader, true⟩ : Pager Nat) = false := rfl
    have hnext : Pager.Next (⟨100, "a", some loopLoader, true⟩ : Pager Nat) =
        some (([], none), ⟨100, "a", some loopLoader, true⟩, ["a"]) := rfl
    rw [allLoop_step_success _ _ _ _ _ _ hnl hnext, ih]
    rfl

/-- C9 counterexample: `All` does not terminate for every loader. For the
loader that always succeeds handing back the non-empty key "a", no finite
fuel completes the loop of `All` from a fresh pager: the loop runs forever. -/
theorem all_termination_counterexample :
    ¬ Pager.AllTerminates (⟨100, "", some loopLoader, false⟩ : Pager Nat) := by
  intro h
  obtain ⟨fuel, hfuel⟩ := h
  have hall : Pager.All (⟨100, "", some loopLoader, false⟩ : Pager Nat) fuel = none := by
    cases fuel with
    | zero => rfl
    | succ m =>
      have hnl : Pager.IsAllLoaded (⟨100, "", some loopLoader, false⟩ : Pager Nat) = false := rfl
      have hnext : Pager.Next (⟨100, "", some loopLoader, false⟩ : Pager Nat) =
          some (([], none), ⟨100, "a", some loopLoader, true⟩, [""]) := rfl
      show Pager.AllLoop _ [] (m + 1) = none
      rw [allLoop_step_success _ _ _ _ _ _ hnl hnext, allLoop_loopPager_none m]
      rfl
  rw [hall] at hfuel
  simp at hfuel

/-- Whenever the loader's key iteration stops within the fuel bound, the loop
of `All` completes within that same fuel. -/
lemma allLoop_isSome_of_loaderStops {T : Type} (L : Loader T) (sz : Int) :
    ∀ (n : Nat) (key : String) (flag : Bool) (acc : List T),
      loaderStops L sz n key = true →
      (Pager.AllLoop ⟨sz, key, some L, flag⟩ acc n).isSome = true := by
  intro n
  induction n with
  | zero =>
    intro key flag acc h
    simp [loaderStops] at h
  | succ m ih =>
    intro key flag acc h
    by_cases hl : Pager.IsAllLoaded (⟨sz, key, some L, flag⟩ : Pager T) = true
    · rw [allLoop_of_isAllLoaded _ _ _ hl]
      rfl
    · have hl' : Pager.IsAllLoaded (⟨sz, key, some L, flag⟩ : Pager T) = false :=
        Bool.eq_false_iff.mpr hl
      simp only [loaderStops] at h
      rcases htr : L key sz with ⟨pg, nk, err⟩
      rw [htr] at h
      cases err with
      | some e =>
        have hnext : Pager.Next (⟨sz, key, some L, flag⟩ : Pager T) =
            some (([], some ("page " ++ key ++ ": " ++ e)), ⟨sz, key, some L, flag⟩, [key]) := by
          simp [Pager.Next, hl', htr]
        rw [allLoop_step_error _ _ _ _ _ _ _ hl' hnext]
        rfl
      | none =>
        simp only at h
        have hnext : Pager.Next (⟨sz, key, some L, flag⟩ : Pager T) =
            some ((pg, none), ⟨sz, nk, some L, true⟩, [key]) := by
          simp [Pager.Next, hl', htr, Pager.pageLoadedAtLeastOnceTime]
        rw [allLoop_step_success _ _ _ _ _ _ hl' hnext]
        by_cases hnk : nk = ""
        · subst hnk
          rw [allLoop_of_isAllLoaded _ _ _ (by simp [Pager.IsAllLoaded])]
          rfl
        · have hst : loaderStops L sz m nk = true := by
            rcases Bool.or_eq_true_iff.mp h with h' | h'
            · exact absurd (by simpa using h') hnk
            · exact h'
          have hrec := ih nk true (acc ++ pg) hst
          simpa [Option.isSome_map] using hrec

/-- C9 amended: `All` completes within fuel `n` whenever the loader's own key
iteration from the start key reaches an error or an empty next key within `n`
loads; a loader that never does (see the counterexample) makes `All` loop
forever. -/
theorem all_terminates_of_loaderStops {T : Type} (L : Loader T) (sz : Int)
    (h : ∃ n, loaderStops L sz n "" = true) :
    Pager.AllTerminates (⟨sz, "", some L, false⟩ : Pager T) := by
  obtain ⟨n, hn⟩ := h
  exact ⟨n, allLoop_isSome_of_loaderStops L sz n "" false [] hn⟩

/-- Witness for the amended C9: the three-page example loader stops within
three loads, so `All` terminates on it. -/
theorem all_terminates_of_loaderStops_witness :
    Pager.AllTerminates (⟨100, "", some exampleLoader, false⟩ : Pager Nat) :=
  all_terminates_of_loaderStops exampleLoader 100 ⟨3, by decide⟩

/-- C10: The fully-loaded state is absorbing: from a fully loaded pager, any
sequence of `Next` and `All` calls returns exactly the same pager with an
empty loader-call trace (the loader is never invoked again), and the next
page key and first-page flag stay in their fully-loaded values. -/
theorem fully_loaded_absorbing {T : Type} (p : Pager T) (calls : List PagerCall)
    (h : p.IsAllLoaded = true) :
    runCalls p calls = some (p, []) ∧ p.nextPageKey = "" ∧ p.isFirstPageLoaded = true := by
  have hkey : p.nextPageKey = "" ∧ p.isFirstPageLoaded = true := by
    simpa [Pager.IsAllLoaded, Bool.and_eq_true, beq_iff_eq] using h
  refine ⟨?_, hkey⟩
  induction calls with
  | nil => rfl
  | cons c rest ih =>
    cases c with
    | next => simp [runCalls, Pager.Next, h, ih]
    | all fuel => simp [runCalls, Pager.All, allLoop_of_isAllLoaded p [] fuel h, ih]

/-- Witness for C10 at a concrete fully loaded pager and call sequence. -/
theorem fully_loaded_absorbing_witness :
    runCalls (⟨100, "", some emptyLoader, true⟩ : Pager Nat)
        [PagerCall.next, PagerCall.all 2, PagerCall.next] =
      some (⟨100, "", some emptyLoader, true⟩, []) ∧
    ("" : String) = "" ∧ true = true :=
  fully_loaded_absorbing ⟨100, "", some emptyLoader, true⟩
    [PagerCall.next, PagerCall.all 2, PagerCall.next] rfl

end Page
